import Mathlib

set_option maxRecDepth 60000

/-!
Verification of the chzzk-timeline chat-extraction pipeline.

Shallow embedding of the repository's core functions:
 * `src/infra/lambda/extract-chat-from-video.py` — `_safe_nickname`, and
   `_upload_chatlog_to_s3` (paginated fetch, record normalization, buffered
   multipart upload with finalize/abort);
 * `src/list_replays.py` — `_request` (retry wrapper);
 * `src/bot-replays-chat.py` — `fetch_and_save_chat_data` (resume guard).

Machine data (bytes) is modelled as `List Nat`, JSON payloads at the level of
distinctions the code actually makes, and the S3 / network effects as explicit
event traces.
-/

namespace Chzzk

/-! ## Python string primitives used by the sources -/

/-- The ASCII whitespace characters `str.strip` removes
(space, tab, newline, carriage return, vertical tab, form feed). -/
def isPyWs (c : Char) : Bool :=
  (c == ' ') || (c == '\t') || (c == '\n') || (c == '\r') || (c == '\x0b') || (c == '\x0c')

/-- Python `s.strip()`: whitespace removed from both ends. -/
def pyStrip (s : String) : String :=
  String.mk (((s.data.dropWhile isPyWs).reverse.dropWhile isPyWs).reverse)

/-- `str(...).replace("\r", " ").replace("\n", " ").strip()` applied to the
chat text (extract-chat-from-video.py lines 153-158). -/
def collapseText (s : String) : String :=
  pyStrip (String.mk (s.data.map fun c => if c == '\r' || c == '\n' then ' ' else c))

/-- UTF-8 encoding of one character (the bytes `line.encode("utf-8")` yields). -/
def utf8Char (c : Char) : List Nat :=
  let n := c.toNat
  if n < 0x80 then [n]
  else if n < 0x800 then [0xC0 + n / 0x40, 0x80 + n % 0x40]
  else if n < 0x10000 then
    [0xE0 + n / 0x1000, 0x80 + n / 0x40 % 0x40, 0x80 + n % 0x40]
  else
    [0xF0 + n / 0x40000, 0x80 + n / 0x1000 % 0x40, 0x80 + n / 0x40 % 0x40, 0x80 + n % 0x40]

/-- UTF-8 bytes of a string. -/
def utf8Bytes (s : String) : List Nat :=
  s.data.flatMap utf8Char

/-! ## Timestamp formatting

`datetime.fromtimestamp(message_time / 1000.0, timezone(timedelta(hours=9)))`
followed by `strftime("%Y-%m-%d %H:%M:%S")`.  The civil-date computation is
the standard days-to-civil conversion on the proleptic Gregorian calendar,
which is what CPython's `datetime` implements. -/

/-- Gregorian (year, month, day) of a day count relative to 1970-01-01. -/
def civilFromDays (z0 : Int) : Int × Nat × Nat :=
  let z := z0 + 719468
  let era := Int.fdiv z 146097
  let doe := (z - era * 146097).toNat
  let yoe := (doe - doe / 1460 + doe / 36524 - doe / 146096) / 365
  let doy := doe - (365 * yoe + yoe / 4 - yoe / 100)
  let mp := (5 * doy + 2) / 153
  let d := doy - (153 * mp + 2) / 5 + 1
  let m := if mp < 10 then mp + 3 else mp - 9
  ((yoe : Int) + era * 400 + (if m ≤ 2 then 1 else 0), m, d)

/-- Two-digit zero padding, as `strftime` does for `%m %d %H %M %S`. -/
def pad2 (n : Nat) : String :=
  if n < 10 then "0" ++ toString n else toString n

/-- `strftime("%Y-%m-%d %H:%M:%S")` of an epoch-millisecond value rendered at
the fixed UTC+9 offset (the `kst` timezone of the source). -/
def formatKst (ms : Int) : String :=
  let t := Int.fdiv ms 1000 + 9 * 3600
  let days := Int.fdiv t 86400
  let sod := (t - days * 86400).toNat
  let ymd := civilFromDays days
  toString ymd.1 ++ "-" ++ pad2 ymd.2.1 ++ "-" ++ pad2 ymd.2.2 ++ " " ++
    pad2 (sod / 3600) ++ ":" ++ pad2 (sod % 3600 / 60) ++ ":" ++ pad2 (sod % 60)

/-! ## `_safe_nickname` (extract-chat-from-video.py lines 52-64) -/

/-- The shapes of the `profile` field the code distinguishes. -/
inductive ProfileVal where
  /-- absent, `None`, or otherwise falsy (e.g. the empty string) -/
  | missing : ProfileVal
  /-- the literal string `"null"` -/
  | nullLiteral : ProfileVal
  /-- already a dict; payload is its `nickname` entry (`none` = absent or falsy) -/
  | dictVal (nickname : Option String) : ProfileVal
  /-- a string that `json.loads` parses to a dict; payload as above -/
  | strParsedDict (nickname : Option String) : ProfileVal
  /-- a string that fails to parse, or parses to a non-dict value -/
  | strOther : ProfileVal
deriving DecidableEq

/-- `str(obj.get("nickname") or "Unknown")`: a falsy nickname (absent or
empty) falls back to the fixed label. -/
def orUnknown : Option String → String
  | some s => if s == "" then "Unknown" else s
  | none => "Unknown"

/-- `_safe_nickname`. -/
def safeNickname : ProfileVal → String
  | .missing => "Unknown"
  | .nullLiteral => "Unknown"
  | .dictVal nick => orUnknown nick
  | .strParsedDict nick => orUnknown nick
  | .strOther => "Unknown"

/-! ## One raw chat record and its normalized line -/

/-- One element of `videoChats` that is a dict.  `messageTime` is `none` when
the field is missing or not convertible by `float(...)` (the record is then
dropped); otherwise the epoch-millisecond value. -/
structure Chat where
  messageTime : Option Int
  profile : ProfileVal
  userIdHash : String
  content : String
deriving DecidableEq

/-- An element of the `videoChats` list: the code skips entries that are not
dicts (`if not isinstance(chat, dict): continue`). -/
inductive ChatItem where
  | nonDict : ChatItem
  | chat (c : Chat) : ChatItem
deriving DecidableEq

/-- The output line of one surviving record:
`f"[{formatted_time}] {nickname}: {text} ({user_id_hash})\n"`. -/
def chatLine (ms : Int) (p : ProfileVal) (uid text : String) : String :=
  "[" ++ formatKst ms ++ "] " ++ safeNickname p ++ ": " ++ collapseText text ++
    " (" ++ pyStrip uid ++ ")" ++ "\n"

/-- Normalization of one `videoChats` element: `none` when the record is
dropped (non-dict, or bad `messageTime`), otherwise the UTF-8 bytes of its
output line. -/
def normalizeItem? : ChatItem → Option (List Nat)
  | .nonDict => none
  | .chat c =>
    match c.messageTime with
    | none => none
    | some ms => some (utf8Bytes (chatLine ms c.profile c.userIdHash c.content))

/-! ## `_upload_chatlog_to_s3` (extract-chat-from-video.py lines 67-229)

The S3 client calls are modelled as an event trace; the paginated HTTP
responses as a list of `PageItem`, consumed one per request in arrival
order.  An exhausted list, like an explicit `fetchErr`, stands for a request
on which `_download_json` raised. -/

/-- One S3 API call made by the function. -/
inductive S3Event where
  | createMultipart : S3Event
  | uploadPart (partNumber : Nat) (body : List Nat) : S3Event
  | putObject (body : List Nat) : S3Event
  /-- payload: the part numbers listed in `MultipartUpload={"Parts": parts}` -/
  | completeMultipart (partNumbers : List Nat) : S3Event
  | abortMultipart : S3Event
deriving DecidableEq

/-- One response of the paginated chat API, or a request that raised. -/
inductive PageItem where
  /-- `_download_json` raised (network error, bad JSON, timeout …) -/
  | fetchErr : PageItem
  /-- a JSON response: its `code`, the `videoChats` list (empty when absent or
  when `content` is not a dict), and `content.get("nextPlayerMessageTime")` -/
  | resp (code : Int) (videoChats : List ChatItem) (next : Option String) : PageItem
deriving DecidableEq

/-- `CHATLOG_PART_SIZE_MB` clamped to the 5 MiB multipart floor and scaled to
bytes (lines 84-86: `part_size_mb = max(part_size_mb, 5)`). -/
def effectivePartSize (mb : Int) : Nat :=
  (max mb 5).toNat * (1024 * 1024)

/-- The mutable state of one run of `_upload_chatlog_to_s3`. -/
structure RunState where
  /-- `next_player_message_time`, the cursor used for the next request -/
  cursor : String
  pages : Nat
  lines : Nat
  totalBytes : Nat
  buffer : List Nat
  partNumber : Nat
  /-- committed parts so far, as `(partNumber, body)` in commit order -/
  parts : List (Nat × List Nat)
  events : List S3Event
  /-- number of `_download_json` calls issued -/
  requests : Nat
deriving DecidableEq

/-- One-step body of the flush loop: commit the first `partSize` buffered
bytes as the next sequential part. -/
def flushStep (partSize : Nat) (st : RunState) : RunState :=
  { st with
    buffer := st.buffer.drop partSize
    parts := st.parts ++ [(st.partNumber, st.buffer.take partSize)]
    events := st.events ++ [S3Event.uploadPart st.partNumber (st.buffer.take partSize)]
    partNumber := st.partNumber + 1 }

/-- The flush loop, driven by fuel.  Each iteration strictly shrinks the
buffer (for a positive part size), so any fuel at least the buffer length
computes the loop's true fixed point. -/
def flushLoopAux (partSize : Nat) : Nat → RunState → RunState
  | 0, st => st
  | fuel + 1, st =>
    if 0 < partSize ∧ partSize ≤ st.buffer.length then
      flushLoopAux partSize fuel (flushStep partSize st)
    else st

/-- The inner flush loop (lines 170-181): while the buffer holds at least one
part size, slice off exactly `partSize` bytes and commit them as the next
sequential part. -/
def flushLoop (partSize : Nat) (st : RunState) : RunState :=
  flushLoopAux partSize st.buffer.length st

/-- Processing of one `videoChats` element (lines 139-181): drop it if it is
not a dict or its `messageTime` does not convert, else append its normalized
line to the buffer, bump the counters, and run the flush loop. -/
def processChatItem (partSize : Nat) (it : ChatItem) (st : RunState) : RunState :=
  match normalizeItem? it with
  | none => st
  | some line =>
    flushLoop partSize
      { st with
        buffer := st.buffer ++ line
        totalBytes := st.totalBytes + line.length
        lines := st.lines + 1 }

/-- The `for chat in video_chats` loop. -/
def processChats (partSize : Nat) (chats : List ChatItem) (st : RunState) : RunState :=
  chats.foldl (fun s it => processChatItem partSize it s) st

/-- The `while True` page loop (lines 110-190).  `Except.error` carries the
state at the point an exception was raised (`RuntimeError` on the page
ceiling, or a raising `_download_json`); `Except.ok` the state at a normal
`break`.  The ceiling check opens every iteration, before the request. -/
def fetchLoop (partSize maxPages : Nat) : List PageItem → RunState → Except RunState RunState
  | [], st =>
    if maxPages ≤ st.pages then Except.error st
    else Except.error { st with requests := st.requests + 1 }
  | PageItem.fetchErr :: _, st =>
    if maxPages ≤ st.pages then Except.error st
    else Except.error { st with requests := st.requests + 1 }
  | PageItem.resp code chats next :: rest, st =>
    if maxPages ≤ st.pages then Except.error st
    else
      let st1 := { st with requests := st.requests + 1 }
      if code ≠ 200 then Except.ok st1
      else if chats.isEmpty then Except.ok st1
      else
        let st2 := processChats partSize chats st1
        let st3 := { st2 with pages := st2.pages + 1 }
        match next with
        | none => Except.ok st3
        | some raw =>
          let n := pyStrip raw
          if n = "" then Except.ok st3
          else if n = st.cursor then Except.ok st3
          else fetchLoop partSize maxPages rest { st3 with cursor := n }

/-- The run statistics returned on success (`{"pages": …, "lines": …, "bytes": …}`). -/
structure Stats where
  pages : Nat
  lines : Nat
  bytes : Nat
deriving DecidableEq

/-- What one whole run leaves behind. -/
structure RunOutcome where
  events : List S3Event
  /-- `some stats` on normal return, `none` when the exception propagated -/
  result : Option Stats
  /-- the bytes of the destination object, `none` when nothing became visible -/
  object : Option (List Nat)
  /-- every committed part (including a final undersized one), in order -/
  committed : List (Nat × List Nat)
  requests : Nat
deriving DecidableEq

/-- Finalization on normal loop exit (lines 192-222): with no committed part,
abort the multipart session and direct-put the whole buffer; otherwise upload
the remaining buffer as the final part and complete, listing every part. -/
def finalize (st : RunState) : RunOutcome :=
  if st.parts.isEmpty then
    { events := st.events ++ [S3Event.abortMultipart, S3Event.putObject st.buffer]
      result := some { pages := st.pages, lines := st.lines, bytes := st.totalBytes }
      object := some st.buffer
      committed := []
      requests := st.requests }
  else
    let withFinal :=
      if st.buffer.isEmpty then (st.parts, st.events)
      else (st.parts ++ [(st.partNumber, st.buffer)],
            st.events ++ [S3Event.uploadPart st.partNumber st.buffer])
    { events := withFinal.2 ++ [S3Event.completeMultipart (withFinal.1.map Prod.fst)]
      result := some { pages := st.pages, lines := st.lines, bytes := st.totalBytes }
      object := some (withFinal.1.map Prod.snd).flatten
      committed := withFinal.1
      requests := st.requests }

/-- The initial state: cursor sentinel `"0"`, multipart session already
created (line 103 runs first inside the `try`). -/
def initState : RunState :=
  { cursor := "0", pages := 0, lines := 0, totalBytes := 0, buffer := []
    partNumber := 1, parts := [], events := [S3Event.createMultipart], requests := 0 }

/-- One whole run of `_upload_chatlog_to_s3`: page loop, then finalize; on
any exception the open session is aborted (lines 223-229) and no result is
returned. -/
def runUpload (mb : Int) (maxPages : Nat) (input : List PageItem) : RunOutcome :=
  match fetchLoop (effectivePartSize mb) maxPages input initState with
  | Except.ok st => finalize st
  | Except.error st =>
    { events := st.events ++ [S3Event.abortMultipart], result := none
      object := none, committed := [], requests := st.requests }

/-- Reference (spec-side) description of the output: the normalized lines of
every fetched record not dropped as malformed, in arrival order, gathered by
the same page-termination rules as the loop but with no buffering at all. -/
def specLines (maxPages : Nat) : List PageItem → String → Nat → List (List Nat)
  | [], _, _ => []
  | PageItem.fetchErr :: _, _, _ => []
  | PageItem.resp code chats next :: rest, cursor, pages =>
    if maxPages ≤ pages then []
    else if code ≠ 200 then []
    else if chats.isEmpty then []
    else
      chats.filterMap normalizeItem? ++
        match next with
        | none => []
        | some raw =>
          let n := pyStrip raw
          if n = "" then []
          else if n = cursor then []
          else specLines maxPages rest n (pages + 1)

/-! ## `_request` (list_replays.py lines 17-29)

The network is a function from the attempt index to the response of that
attempt; side effects (GET calls and `time.sleep`) are an event trace. -/

/-- One HTTP response: its status code, the `code` field of the decoded JSON
body, and the `content` payload (opaque here). -/
structure AttemptResp where
  status : Nat
  jcode : Int
  content : String
deriving DecidableEq

/-- An observable action of `_request`. -/
inductive ReqEvent where
  | getCall : ReqEvent
  | sleepEv (seconds : ℚ) : ReqEvent
deriving DecidableEq

/-- How `_request` fails. -/
inductive ReqError where
  /-- `ChzzkAPIError` — HTTP 200 but JSON `code != 200` -/
  | apiNon200 (jcode : Int) : ReqError
  /-- `requests.HTTPError` from `r.raise_for_status()` -/
  | httpError (status : Nat) : ReqError
  /-- `ChzzkAPIError` — `Failed after {max_retries} retries` -/
  | exhausted : ReqError
deriving DecidableEq

/-- The statuses the loop retries with backoff: `(429, 500, 502, 503)`. -/
def transientStatuses : List Nat := [429, 500, 502, 503]

/-- The `for attempt in range(max_retries)` loop of `_request`, structurally
recursive on the number of remaining attempts.  `raise_for_status()` raises
exactly for statuses in 400-599; any other non-200 status falls through and
retries immediately without sleeping. -/
def requestAux (base : ℚ) (net : Nat → AttemptResp) :
    Nat → Nat → List ReqEvent × Except ReqError String
  | 0, _ => ([], Except.error ReqError.exhausted)
  | remaining + 1, attempt =>
    let r := net attempt
    if r.status = 200 then
      if r.jcode = 200 then ([ReqEvent.getCall], Except.ok r.content)
      else ([ReqEvent.getCall], Except.error (ReqError.apiNon200 r.jcode))
    else if r.status ∈ transientStatuses then
      let rest := requestAux base net remaining (attempt + 1)
      (ReqEvent.getCall :: ReqEvent.sleepEv (base * 2 ^ attempt) :: rest.1, rest.2)
    else if 400 ≤ r.status ∧ r.status < 600 then
      ([ReqEvent.getCall], Except.error (ReqError.httpError r.status))
    else
      let rest := requestAux base net remaining (attempt + 1)
      (ReqEvent.getCall :: rest.1, rest.2)

/-- `_request(url, params, max_retries, backoff)`: the whole bounded retry
loop, starting at attempt 0. -/
def request (base : ℚ) (maxRetries : Nat) (net : Nat → AttemptResp) :
    List ReqEvent × Except ReqError String :=
  requestAux base net maxRetries 0

/-! ## `fetch_and_save_chat_data` (bot-replays-chat.py lines 86-168)

The destination file is `Option (List String)` (`none` = does not exist;
otherwise its lines).  All exceptions in the body are caught and printed, so
the function always returns normally; an exhausted input list, like
`fetchErr`, stands for a request that raised. -/

/-- The `profile` shapes the bot distinguishes (it only ever handles string
profiles; a falsy value or the literal `"null"` short-circuits). -/
inductive BotProfile where
  | missing : BotProfile
  | nullLiteral : BotProfile
  /-- a string parsing to a dict; `none` = no `"nickname"` key -/
  | strParsedDict (nickname : Option String) : BotProfile
  | strOther : BotProfile
deriving DecidableEq

/-- `profile.get("nickname", "Unknown")` after the falsy/`"null"`/parse-error
checks — the default applies only when the key is absent. -/
def botNickname : BotProfile → String
  | .missing => "Unknown"
  | .nullLiteral => "Unknown"
  | .strParsedDict nick => nick.getD "Unknown"
  | .strOther => "Unknown"

/-- One element of the bot's `videoChats` (accessed by direct indexing, so
all fields present). -/
structure BotChat where
  messageTime : Int
  profile : BotProfile
  userIdHash : String
  content : String
deriving DecidableEq

/-- `log_message = f"[{formatted_time}] {nickname}: {content} ({user_id_hash})\n"`
(the bot neither collapses newlines nor strips, unlike the lambda). -/
def botLine (c : BotChat) : String :=
  "[" ++ formatKst c.messageTime ++ "] " ++ botNickname c.profile ++ ": " ++
    c.content ++ " (" ++ c.userIdHash ++ ")" ++ "\n"

/-- One response of the chat API as the bot sees it. -/
inductive BotItem where
  | fetchErr : BotItem
  | resp (code : Int) (videoChats : List BotChat) (next : Option String) : BotItem
deriving DecidableEq

/-- What a call to `fetch_and_save_chat_data` leaves behind: the destination
file and the number of `requests.get` calls issued. -/
structure BotResult where
  file : Option (List String)
  requests : Nat
deriving DecidableEq

/-- The bot's `while True` download loop, writing into an already-truncated
file.  The cursor value only parameterizes the next URL, so it is implicit in
the positional consumption of `net`. -/
def botLoop : List BotItem → List String → Nat → List String × Nat
  | [], acc, reqs => (acc, reqs + 1)
  | BotItem.fetchErr :: _, acc, reqs => (acc, reqs + 1)
  | BotItem.resp code chats next :: rest, acc, reqs =>
    if code = 200 ∧ chats.isEmpty = false then
      let acc2 := acc ++ chats.map botLine
      match next with
      | none => (acc2, reqs + 1)
      | some _ => botLoop rest acc2 (reqs + 1)
    else (acc, reqs + 1)

/-- `file_path.exists() and file_path.stat().st_size > 0`. -/
def destNonEmpty : Option (List String) → Bool
  | some c => !c.isEmpty
  | none => false

/-- `fetch_and_save_chat_data(video_no, output_dir)`: skip when the
destination already exists non-empty, otherwise truncate (`open(..., "w")`)
and run the download loop. -/
def fetchAndSaveChat (file : Option (List String)) (net : List BotItem) : BotResult :=
  if destNonEmpty file then { file := file, requests := 0 }
  else
    let r := botLoop net [] 0
    { file := some r.1, requests := r.2 }

/-! ## Verification-side helper definitions -/

/-- The full byte content a run's state stands for: every committed part in
order, then the pending buffer. -/
def contentOf (st : RunState) : List Nat :=
  (st.parts.map Prod.snd).flatten ++ st.buffer

/-- `true` for the S3 calls the page loop itself may emit. -/
def isDataEvent : S3Event → Bool
  | S3Event.createMultipart => true
  | S3Event.uploadPart _ _ => true
  | _ => false

/-- Structural run invariant: contiguous part numbers from 1, every committed
part exactly one part size, the byte counter in sync with the content, and
only create/upload events so far. -/
def PreInv (partSize : Nat) (st : RunState) : Prop :=
  st.parts.map Prod.fst = List.range' 1 st.parts.length
  ∧ st.partNumber = st.parts.length + 1
  ∧ (∀ p ∈ st.parts, (Prod.snd p).length = partSize)
  ∧ st.totalBytes = (contentOf st).length
  ∧ st.events.all isDataEvent = true

/-- `PreInv` plus: the buffer is strictly below one part size (true whenever
the flush loop has just run). -/
def Inv (partSize : Nat) (st : RunState) : Prop :=
  PreInv partSize st ∧ st.buffer.length < partSize

/-- Whether an `Except`-valued loop exit is a normal `break`. -/
def isOkE {ε α : Type _} : Except ε α → Bool
  | Except.ok _ => true
  | Except.error _ => false

/-- The request counter of either loop exit. -/
def requestsOf : Except RunState RunState → Nat
  | Except.ok s => s.requests
  | Except.error s => s.requests

/-- How many `put_object` calls a trace holds. -/
def countPuts (evs : List S3Event) : Nat :=
  (evs.filter fun e => match e with | S3Event.putObject _ => true | _ => false).length

/-- How many `complete_multipart_upload` calls a trace holds. -/
def countCompletes (evs : List S3Event) : Nat :=
  (evs.filter fun e => match e with | S3Event.completeMultipart _ => true | _ => false).length

/-- How many `abort_multipart_upload` calls a trace holds. -/
def countAborts (evs : List S3Event) : Nat :=
  (evs.filter fun e => match e with | S3Event.abortMultipart => true | _ => false).length

/-- The part-number lists sent by the `complete_multipart_upload` calls of a
trace, in order. -/
def completeLists (evs : List S3Event) : List (List Nat) :=
  evs.filterMap fun e => match e with | S3Event.completeMultipart ns => some ns | _ => none

/-- `true` when a trace's final S3 call makes the object visible (a
completion or a direct put). -/
def lastIsFinal (evs : List S3Event) : Bool :=
  match evs.getLast? with
  | some (S3Event.completeMultipart _) => true
  | some (S3Event.putObject _) => true
  | _ => false

/-- `true` when a byte list is a newline-terminated line. -/
def endsWithNewline (l : List Nat) : Bool :=
  l.getLast? == some 10

/-- A dict chat record with epoch time 0 used by concrete test inputs. -/
def sampleChat : ChatItem :=
  ChatItem.chat { messageTime := some 0, profile := ProfileVal.missing, userIdHash := "u", content := "hi" }

/-- The input of the spec's page example: page 1 returns 40 records, page 2
returns 0 records. -/
def pagesExample : List PageItem :=
  [ PageItem.resp 200 (List.replicate 40 sampleChat) (some "100"),
    PageItem.resp 200 [] (some "200") ]

/-- A concrete network for exercising the retry wrapper: one rate-limit
response, then a plain 404. -/
def c8Net : Nat → AttemptResp := fun i =>
  if i = 0 then AttemptResp.mk 429 200 "a" else AttemptResp.mk 404 200 "b"

/-! ## Lemmas about the flush loop -/

theorem flushStep_cursor (ps : Nat) (st : RunState) : (flushStep ps st).cursor = st.cursor := rfl

theorem flushStep_pages (ps : Nat) (st : RunState) : (flushStep ps st).pages = st.pages := rfl

theorem flushStep_lines (ps : Nat) (st : RunState) : (flushStep ps st).lines = st.lines := rfl

theorem flushStep_totalBytes (ps : Nat) (st : RunState) :
    (flushStep ps st).totalBytes = st.totalBytes := rfl

theorem flushStep_requests (ps : Nat) (st : RunState) :
    (flushStep ps st).requests = st.requests := rfl

theorem flushStep_content (ps : Nat) (st : RunState) :
    contentOf (flushStep ps st) = contentOf st := by
  simp only [contentOf, flushStep, List.map_append, List.map_cons, List.map_nil,
    List.flatten_append, List.flatten_cons, List.flatten_nil, List.append_nil,
    List.append_assoc, List.take_append_drop]

theorem flushLoopAux_cursor (ps : Nat) :
    ∀ fuel st, (flushLoopAux ps fuel st).cursor = st.cursor := by
  intro fuel
  induction fuel with
  | zero => intro st; rfl
  | succ n ih =>
    intro st
    rw [flushLoopAux]
    split
    · rw [ih, flushStep_cursor]
    · rfl

theorem flushLoopAux_pages (ps : Nat) :
    ∀ fuel st, (flushLoopAux ps fuel st).pages = st.pages := by
  intro fuel
  induction fuel with
  | zero => intro st; rfl
  | succ n ih =>
    intro st
    rw [flushLoopAux]
    split
    · rw [ih, flushStep_pages]
    · rfl

theorem flushLoopAux_lines (ps : Nat) :
    ∀ fuel st, (flushLoopAux ps fuel st).lines = st.lines := by
  intro fuel
  induction fuel with
  | zero => intro st; rfl
  | succ n ih =>
    intro st
    rw [flushLoopAux]
    split
    · rw [ih, flushStep_lines]
    · rfl

theorem flushLoopAux_totalBytes (ps : Nat) :
    ∀ fuel st, (flushLoopAux ps fuel st).totalBytes = st.totalBytes := by
  intro fuel
  induction fuel with
  | zero => intro st; rfl
  | succ n ih =>
    intro st
    rw [flushLoopAux]
    split
    · rw [ih, flushStep_totalBytes]
    · rfl

theorem flushLoopAux_requests (ps : Nat) :
    ∀ fuel st, (flushLoopAux ps fuel st).requests = st.requests := by
  intro fuel
  induction fuel with
  | zero => intro st; rfl
  | succ n ih =>
    intro st
    rw [flushLoopAux]
    split
    · rw [ih, flushStep_requests]
    · rfl

theorem flushLoopAux_content (ps : Nat) :
    ∀ fuel st, contentOf (flushLoopAux ps fuel st) = contentOf st := by
  intro fuel
  induction fuel with
  | zero => intro st; rfl
  | succ n ih =>
    intro st
    rw [flushLoopAux]
    split
    · rw [ih, flushStep_content]
    · rfl

theorem flushStep_preInv (ps : Nat) (st : RunState) (hps : ps ≤ st.buffer.length)
    (h : PreInv ps st) : PreInv ps (flushStep ps st) := by
  obtain ⟨h1, h2, h3, h4, h5⟩ := h
  refine ⟨?_, ?_, ?_, ?_, ?_⟩
  · simp only [flushStep, List.map_append, List.map_cons, List.map_nil, List.length_append,
      List.length_cons, List.length_nil, h1, h2]
    rw [List.range'_1_concat]
    simp [Nat.add_comm]
  · simp [flushStep, h2, Nat.add_comm]
  · intro p hp
    simp only [flushStep, List.mem_append, List.mem_cons, List.not_mem_nil, or_false] at hp
    rcases hp with hp | hp
    · exact h3 p hp
    · subst hp
      simp [List.length_take, Nat.min_eq_left hps]
  · rw [flushStep_content, flushStep_totalBytes]
    exact h4
  · simp only [flushStep, List.all_append, h5, Bool.true_and, List.all_cons, List.all_nil,
      Bool.and_true]
    rfl

theorem flushLoopAux_inv (ps : Nat) :
    ∀ fuel st, 0 < ps → st.buffer.length ≤ fuel → PreInv ps st →
      Inv ps (flushLoopAux ps fuel st) := by
  intro fuel
  induction fuel with
  | zero =>
    intro st hps hle hpre
    have hz : flushLoopAux ps 0 st = st := rfl
    rw [hz]
    exact ⟨hpre, by omega⟩
  | succ n ih =>
    intro st hps hle hpre
    rw [flushLoopAux]
    split
    · rename_i hcond
      refine ih (flushStep ps st) hps ?_ (flushStep_preInv ps st hcond.2 hpre)
      simp only [flushStep, List.length_drop]
      omega
    · rename_i hcond
      exact ⟨hpre, by omega⟩

theorem flushLoop_inv (ps : Nat) (st : RunState) (hps : 0 < ps) (hpre : PreInv ps st) :
    Inv ps (flushLoop ps st) :=
  flushLoopAux_inv ps st.buffer.length st hps (Nat.le_refl _) hpre

theorem flushLoopAux_buffer_lt (ps : Nat) :
    ∀ fuel st, 0 < ps → st.buffer.length ≤ fuel →
      (flushLoopAux ps fuel st).buffer.length < ps := by
  intro fuel
  induction fuel with
  | zero =>
    intro st hps hle
    have hz : flushLoopAux ps 0 st = st := rfl
    rw [hz]
    omega
  | succ n ih =>
    intro st hps hle
    rw [flushLoopAux]
    split
    · rename_i hcond
      refine ih (flushStep ps st) hps ?_
      simp only [flushStep, List.length_drop]
      omega
    · rename_i hcond
      omega

/-- After any run of the flush loop with a positive part size, the pending
buffer is strictly below one part size. -/
theorem flushLoop_buffer_lt (ps : Nat) (st : RunState) (hps : 0 < ps) :
    (flushLoop ps st).buffer.length < ps :=
  flushLoopAux_buffer_lt ps st.buffer.length st hps (Nat.le_refl _)

theorem flushLoop_cursor (ps : Nat) (st : RunState) : (flushLoop ps st).cursor = st.cursor :=
  flushLoopAux_cursor ps _ st

theorem flushLoop_pages (ps : Nat) (st : RunState) : (flushLoop ps st).pages = st.pages :=
  flushLoopAux_pages ps _ st

theorem flushLoop_lines (ps : Nat) (st : RunState) : (flushLoop ps st).lines = st.lines :=
  flushLoopAux_lines ps _ st

theorem flushLoop_totalBytes (ps : Nat) (st : RunState) :
    (flushLoop ps st).totalBytes = st.totalBytes :=
  flushLoopAux_totalBytes ps _ st

theorem flushLoop_requests (ps : Nat) (st : RunState) :
    (flushLoop ps st).requests = st.requests :=
  flushLoopAux_requests ps _ st

theorem flushLoop_content (ps : Nat) (st : RunState) :
    contentOf (flushLoop ps st) = contentOf st :=
  flushLoopAux_content ps _ st

/-! ## Lemmas about record processing -/

theorem processChatItem_cursor (ps : Nat) (it : ChatItem) (st : RunState) :
    (processChatItem ps it st).cursor = st.cursor := by
  unfold processChatItem
  split
  · rfl
  · rw [flushLoop_cursor]

theorem processChatItem_pages (ps : Nat) (it : ChatItem) (st : RunState) :
    (processChatItem ps it st).pages = st.pages := by
  unfold processChatItem
  split
  · rfl
  · rw [flushLoop_pages]

theorem processChatItem_requests (ps : Nat) (it : ChatItem) (st : RunState) :
    (processChatItem ps it st).requests = st.requests := by
  unfold processChatItem
  split
  · rfl
  · rw [flushLoop_requests]

theorem processChatItem_content (ps : Nat) (it : ChatItem) (st : RunState) :
    contentOf (processChatItem ps it st) = contentOf st ++ (normalizeItem? it).getD [] := by
  unfold processChatItem
  split
  · rename_i heq
    rw [heq]
    simp
  · rename_i line heq
    rw [heq, flushLoop_content]
    simp [contentOf, List.append_assoc]

theorem processChatItem_lines (ps : Nat) (it : ChatItem) (st : RunState) :
    (processChatItem ps it st).lines =
      st.lines + (if (normalizeItem? it).isSome then 1 else 0) := by
  unfold processChatItem
  split
  · rename_i heq
    rw [heq]
    simp
  · rename_i line heq
    rw [heq, flushLoop_lines]
    simp

theorem processChatItem_inv (ps : Nat) (it : ChatItem) (st : RunState) (hps : 0 < ps)
    (h : Inv ps st) : Inv ps (processChatItem ps it st) := by
  unfold processChatItem
  split
  · exact h
  · rename_i line heq
    obtain ⟨⟨h1, h2, h3, h4, h5⟩, hb⟩ := h
    refine flushLoop_inv ps _ hps ⟨h1, h2, h3, ?_, h5⟩
    simp only [contentOf] at h4 ⊢
    simp [h4, List.append_assoc, Nat.add_assoc]

theorem processChats_spec (ps : Nat) :
    ∀ chats st,
      (processChats ps chats st).cursor = st.cursor ∧
      (processChats ps chats st).pages = st.pages ∧
      (processChats ps chats st).requests = st.requests ∧
      contentOf (processChats ps chats st) =
        contentOf st ++ (chats.filterMap normalizeItem?).flatten ∧
      (processChats ps chats st).lines =
        st.lines + (chats.filterMap normalizeItem?).length := by
  intro chats
  induction chats with
  | nil => intro st; simp [processChats]
  | cons it rest ih =>
    intro st
    have hfold : processChats ps (it :: rest) st = processChats ps rest (processChatItem ps it st) := rfl
    obtain ⟨c, p, r, co, li⟩ := ih (processChatItem ps it st)
    rw [hfold]
    refine ⟨?_, ?_, ?_, ?_, ?_⟩
    · rw [c, processChatItem_cursor]
    · rw [p, processChatItem_pages]
    · rw [r, processChatItem_requests]
    · rw [co, processChatItem_content]
      cases heq : normalizeItem? it with
      | none => simp [List.filterMap_cons, heq]
      | some line => simp [List.filterMap_cons, heq, List.append_assoc]
    · rw [li, processChatItem_lines]
      cases heq : normalizeItem? it with
      | none => simp [List.filterMap_cons, heq]
      | some line => simp [List.filterMap_cons, heq, Nat.add_comm, Nat.add_assoc, Nat.add_left_comm]

theorem processChats_pages (ps : Nat) (chats : List ChatItem) (st : RunState) :
    (processChats ps chats st).pages = st.pages :=
  (processChats_spec ps chats st).2.1

theorem processChats_cursor (ps : Nat) (chats : List ChatItem) (st : RunState) :
    (processChats ps chats st).cursor = st.cursor :=
  (processChats_spec ps chats st).1

theorem processChats_requests (ps : Nat) (chats : List ChatItem) (st : RunState) :
    (processChats ps chats st).requests = st.requests :=
  (processChats_spec ps chats st).2.2.1

theorem processChats_inv (ps : Nat) :
    ∀ chats st, 0 < ps → Inv ps st → Inv ps (processChats ps chats st) := by
  intro chats
  induction chats with
  | nil => intro st _ h; exact h
  | cons it rest ih =>
    intro st hps h
    have hfold : processChats ps (it :: rest) st = processChats ps rest (processChatItem ps it st) := rfl
    rw [hfold]
    exact ih _ hps (processChatItem_inv ps it st hps h)

/-! ## The page loop refines the spec-side record stream -/

theorem fetchLoop_ok_spec (ps maxPages : Nat) :
    ∀ items st st', fetchLoop ps maxPages items st = Except.ok st' → 0 < ps → Inv ps st →
      Inv ps st' ∧
      contentOf st' = contentOf st ++ (specLines maxPages items st.cursor st.pages).flatten ∧
      st'.lines = st.lines + (specLines maxPages items st.cursor st.pages).length := by
  intro items
  induction items with
  | nil =>
    intro st st' hok hps hinv
    simp only [fetchLoop] at hok
    split at hok
    · exact Except.noConfusion hok
    · exact Except.noConfusion hok
  | cons it rest ih =>
    intro st st' hok hps hinv
    cases it with
    | fetchErr =>
      simp only [fetchLoop] at hok
      split at hok
      · exact Except.noConfusion hok
      · exact Except.noConfusion hok
    | resp code chats next =>
      simp only [fetchLoop] at hok
      simp only [specLines]
      split at hok
      · exact Except.noConfusion hok
      rename_i hpages
      rw [if_neg hpages]
      by_cases hcode : code ≠ 200
      · rw [if_pos hcode] at hok
        rw [if_pos hcode]
        cases hok
        exact ⟨hinv, by simp [contentOf], by simp⟩
      · rw [if_neg hcode] at hok
        rw [if_neg hcode]
        by_cases hempty : chats.isEmpty = true
        · rw [if_pos hempty] at hok
          rw [if_pos hempty]
          cases hok
          exact ⟨hinv, by simp [contentOf], by simp⟩
        · rw [if_neg hempty] at hok
          rw [if_neg hempty]
          obtain ⟨hc, hp, hr, hco, hli⟩ :=
            processChats_spec ps chats { st with requests := st.requests + 1 }
          have hinv2 : Inv ps (processChats ps chats { st with requests := st.requests + 1 }) :=
            processChats_inv ps chats _ hps hinv
          cases next with
          | none =>
            cases hok
            refine ⟨hinv2, ?_, ?_⟩
            · simp only [contentOf] at hco ⊢
              simp [hco]
            · simp [hli]
          | some raw =>
            dsimp only at hok ⊢
            by_cases hblank : pyStrip raw = ""
            · rw [if_pos hblank] at hok
              rw [if_pos hblank]
              cases hok
              refine ⟨hinv2, ?_, ?_⟩
              · simp only [contentOf] at hco ⊢
                simp [hco]
              · simp [hli]
            · rw [if_neg hblank] at hok
              rw [if_neg hblank]
              by_cases hstall : pyStrip raw = st.cursor
              · rw [if_pos hstall] at hok
                rw [if_pos hstall]
                cases hok
                refine ⟨hinv2, ?_, ?_⟩
                · simp only [contentOf] at hco ⊢
                  simp [hco]
                · simp [hli]
              · rw [if_neg hstall] at hok
                rw [if_neg hstall]
                obtain ⟨hinv3, hco3, hli3⟩ := ih _ _ hok hps hinv2
                refine ⟨hinv3, ?_, ?_⟩
                · simp only [contentOf] at hco hco3 ⊢
                  simp only [hp, hc] at hco3
                  simp [hco3, hco, List.append_assoc]
                · simp only [hp, hc] at hli3
                  simp [hli3, hli, Nat.add_assoc]

/-- Whether the page loop exits normally depends only on the responses, the
cursor and the page counter — never on the part size or the buffered data. -/
theorem fetchLoop_control (ps ps2 maxPages : Nat) :
    ∀ items st t, st.cursor = t.cursor → st.pages = t.pages →
      isOkE (fetchLoop ps maxPages items st) = isOkE (fetchLoop ps2 maxPages items t) := by
  intro items
  induction items with
  | nil =>
    intro st t hc hp
    simp only [fetchLoop, hp]
    split <;> rfl
  | cons it rest ih =>
    intro st t hc hp
    cases it with
    | fetchErr =>
      simp only [fetchLoop, hp]
      split <;> rfl
    | resp code chats next =>
      simp only [fetchLoop, hp, hc]
      split
      · rfl
      by_cases hcode : code ≠ 200
      · simp only [if_pos hcode]
        rfl
      simp only [if_neg hcode]
      by_cases hempty : chats.isEmpty = true
      · simp only [if_pos hempty]
        rfl
      simp only [if_neg hempty]
      cases next with
      | none => rfl
      | some raw =>
        dsimp only
        by_cases hblank : pyStrip raw = ""
        · simp only [if_pos hblank]
          rfl
        simp only [if_neg hblank]
        by_cases hstall : pyStrip raw = t.cursor
        · simp only [if_pos hstall]
          rfl
        simp only [if_neg hstall]
        exact ih _ _ rfl (by simp [processChats_pages])

/-! ## Every surviving record yields one newline-terminated line -/

theorem utf8Bytes_append (s t : String) :
    utf8Bytes (s ++ t) = utf8Bytes s ++ utf8Bytes t := by
  simp [utf8Bytes, String.data_append, List.flatMap_append]

theorem chatLine_bytes_endNL (ms : Int) (p : ProfileVal) (uid text : String) :
    endsWithNewline (utf8Bytes (chatLine ms p uid text)) = true := by
  unfold chatLine
  rw [utf8Bytes_append]
  have h10 : utf8Bytes "\n" = [10] := rfl
  rw [h10]
  simp [endsWithNewline, List.getLast?_concat]

theorem normalizeItem?_endNL (it : ChatItem) (l : List Nat) (h : normalizeItem? it = some l) :
    endsWithNewline l = true := by
  cases it with
  | nonDict => exact Option.noConfusion h
  | chat c =>
    cases hm : c.messageTime with
    | none => simp [normalizeItem?, hm] at h
    | some ms =>
      simp only [normalizeItem?, hm, Option.some.injEq] at h
      rw [← h]
      exact chatLine_bytes_endNL ms c.profile c.userIdHash c.content

theorem specLines_endNL (maxPages : Nat) :
    ∀ items cursor pages, (specLines maxPages items cursor pages).all endsWithNewline = true := by
  intro items
  induction items with
  | nil => intro c p; rfl
  | cons it rest ih =>
    intro c p
    cases it with
    | fetchErr => rfl
    | resp code chats next =>
      simp only [specLines]
      split
      · rfl
      split
      · rfl
      split
      · rfl
      rw [List.all_append]
      refine (Bool.and_eq_true _ _).mpr ⟨?_, ?_⟩
      · rw [List.all_eq_true]
        intro l hl
        obtain ⟨x, -, hx⟩ := List.mem_filterMap.mp hl
        exact normalizeItem?_endNL x l hx
      · cases next with
        | none => rfl
        | some raw =>
          dsimp only
          split
          · rfl
          split
          · rfl
          exact ih _ _

/-! ## Finalization -/

theorem finalize_result (st : RunState) :
    (finalize st).result = some { pages := st.pages, lines := st.lines, bytes := st.totalBytes } := by
  unfold finalize
  split <;> rfl

theorem finalize_object (st : RunState) : (finalize st).object = some (contentOf st) := by
  unfold finalize
  split
  · rename_i hemp
    simp [contentOf, List.isEmpty_iff.mp hemp]
  · rename_i hemp
    by_cases hbuf : st.buffer.isEmpty = true
    · simp [hbuf, contentOf, List.isEmpty_iff.mp hbuf]
    · simp [hbuf, contentOf, List.map_append, List.flatten_append]

theorem finalize_requests (st : RunState) : (finalize st).requests = st.requests := by
  unfold finalize
  split <;> rfl

/-! ## Run-level facts -/

theorem initState_inv (ps : Nat) (h : 0 < ps) : Inv ps initState := by
  refine ⟨⟨rfl, rfl, ?_, rfl, rfl⟩, h⟩
  intro p hp
  exact absurd hp (List.not_mem_nil p)

theorem effectivePartSize_ge (mb : Int) : 5 * 1024 * 1024 ≤ effectivePartSize mb := by
  unfold effectivePartSize
  omega

theorem effectivePartSize_pos (mb : Int) : 0 < effectivePartSize mb :=
  Nat.lt_of_lt_of_le (by norm_num) (effectivePartSize_ge mb)

theorem runUpload_result_isOk (mb : Int) (maxPages : Nat) (input : List PageItem) :
    (runUpload mb maxPages input).result.isSome =
      isOkE (fetchLoop (effectivePartSize mb) maxPages input initState) := by
  unfold runUpload
  cases h : fetchLoop (effectivePartSize mb) maxPages input initState with
  | ok st => rw [finalize_result]; rfl
  | error st => rfl

theorem runUpload_ok_eq (mb : Int) (maxPages : Nat) (input : List PageItem) (st : RunState)
    (hfl : fetchLoop (effectivePartSize mb) maxPages input initState = Except.ok st) :
    runUpload mb maxPages input = finalize st := by
  unfold runUpload
  rw [hfl]

theorem runUpload_error_eq (mb : Int) (maxPages : Nat) (input : List PageItem) (st : RunState)
    (hfl : fetchLoop (effectivePartSize mb) maxPages input initState = Except.error st) :
    runUpload mb maxPages input =
      { events := st.events ++ [S3Event.abortMultipart], result := none
        object := none, committed := [], requests := st.requests } := by
  unfold runUpload
  rw [hfl]

theorem runUpload_object_of_ok (mb : Int) (maxPages : Nat) (input : List PageItem)
    (h : isOkE (fetchLoop (effectivePartSize mb) maxPages input initState) = true) :
    (runUpload mb maxPages input).object = some (specLines maxPages input "0" 0).flatten := by
  unfold runUpload
  cases hfl : fetchLoop (effectivePartSize mb) maxPages input initState with
  | error st => rw [hfl] at h; exact Bool.noConfusion h
  | ok st =>
    rw [finalize_object]
    obtain ⟨-, hco, -⟩ :=
      fetchLoop_ok_spec (effectivePartSize mb) maxPages input initState st hfl
        (effectivePartSize_pos mb) (initState_inv _ (effectivePartSize_pos mb))
    rw [hco]
    rfl

theorem runUpload_stats_of_ok (mb : Int) (maxPages : Nat) (input : List PageItem) (st : RunState)
    (hfl : fetchLoop (effectivePartSize mb) maxPages input initState = Except.ok st) :
    st.lines = (specLines maxPages input "0" 0).length ∧
    st.totalBytes = (specLines maxPages input "0" 0).flatten.length ∧
    Inv (effectivePartSize mb) st := by
  obtain ⟨hinv, hco, hli⟩ :=
    fetchLoop_ok_spec (effectivePartSize mb) maxPages input initState st hfl
      (effectivePartSize_pos mb) (initState_inv _ (effectivePartSize_pos mb))
  refine ⟨by rw [hli]; simp [initState], ?_, hinv⟩
  have hb := hinv.1.2.2.2.1
  rw [hb, hco]
  simp [initState, contentOf]

/-- C1: on every successful run the finalized object is byte-identical to the
concatenation, in arrival order, of the normalized lines of the surviving
records, and hence independent of the configured part size: any two
configured `CHATLOG_PART_SIZE_MB` values (in particular P and 2P) produce the
same bytes. -/
theorem upload_object_refines_spec (mb mb2 : Int) (maxPages : Nat) (input : List PageItem)
    (h : (runUpload mb maxPages input).result.isSome = true) :
    (runUpload mb maxPages input).object = some (specLines maxPages input "0" 0).flatten ∧
    (runUpload mb2 maxPages input).object = (runUpload mb maxPages input).object := by
  rw [runUpload_result_isOk] at h
  have h2 : isOkE (fetchLoop (effectivePartSize mb2) maxPages input initState) = true := by
    rw [fetchLoop_control (effectivePartSize mb2) (effectivePartSize mb) maxPages input
      initState initState rfl rfl]
    exact h
  rw [runUpload_object_of_ok mb maxPages input h, runUpload_object_of_ok mb2 maxPages input h2]
  exact ⟨rfl, rfl⟩

/-- Witness for C1 at a concrete input: one page with one record, then a
terminating page. -/
theorem upload_object_refines_spec_witness :
    (runUpload 8 16 pagesExample).object = some (specLines 16 pagesExample "0" 0).flatten ∧
    (runUpload 16 16 pagesExample).object = (runUpload 8 16 pagesExample).object :=
  upload_object_refines_spec 8 16 16 pagesExample (by decide)

/-- C10: the statistics a successful run returns agree with the written
object: `bytes` is the byte length of the destination object, `lines` the
number of surviving records, and every surviving record contributed exactly
one newline-terminated line. -/
theorem upload_stats_consistent (mb : Int) (maxPages : Nat) (input : List PageItem) (s : Stats)
    (h : (runUpload mb maxPages input).result = some s) :
    (runUpload mb maxPages input).object = some (specLines maxPages input "0" 0).flatten ∧
    s.bytes = (specLines maxPages input "0" 0).flatten.length ∧
    s.lines = (specLines maxPages input "0" 0).length ∧
    (specLines maxPages input "0" 0).all endsWithNewline = true := by
  have hsome : (runUpload mb maxPages input).result.isSome = true := by
    rw [h]; rfl
  rw [runUpload_result_isOk] at hsome
  refine ⟨runUpload_object_of_ok mb maxPages input hsome, ?_, ?_,
    specLines_endNL maxPages input "0" 0⟩ <;>
  · cases hfl : fetchLoop (effectivePartSize mb) maxPages input initState with
    | error st => rw [hfl] at hsome; exact Bool.noConfusion hsome
    | ok st =>
      obtain ⟨hli, hby, -⟩ := runUpload_stats_of_ok mb maxPages input st hfl
      have hres : (runUpload mb maxPages input).result =
          some { pages := st.pages, lines := st.lines, bytes := st.totalBytes } := by
        unfold runUpload
        rw [hfl, finalize_result]
      rw [h] at hres
      cases hres
      simp [hli, hby]

/-- Witness for C10 at a concrete input. -/
theorem upload_stats_consistent_witness :
    (runUpload 8 16 pagesExample).object = some (specLines 16 pagesExample "0" 0).flatten ∧
    (Stats.mk 1 40 (40 * 38)).bytes = (specLines 16 pagesExample "0" 0).flatten.length ∧
    (Stats.mk 1 40 (40 * 38)).lines = (specLines 16 pagesExample "0" 0).length ∧
    (specLines 16 pagesExample "0" 0).all endsWithNewline = true :=
  upload_stats_consistent 8 16 pagesExample (Stats.mk 1 40 (40 * 38)) (by decide)

/-- C2: every run either returns statistics with a trace whose final S3 call
makes the object visible (complete or direct put), or propagates its
exception with the session aborted as the very last S3 call and no object
ever visible — never a half-committed session. -/
theorem upload_all_or_nothing (mb : Int) (maxPages : Nat) (input : List PageItem) :
    ((runUpload mb maxPages input).result = none ∧
      (runUpload mb maxPages input).events.getLast? = some S3Event.abortMultipart ∧
      (runUpload mb maxPages input).object = none) ∨
    ((runUpload mb maxPages input).result.isSome = true ∧
      lastIsFinal (runUpload mb maxPages input).events = true ∧
      (runUpload mb maxPages input).object.isSome = true) := by
  cases hfl : fetchLoop (effectivePartSize mb) maxPages input initState with
  | error st =>
    left
    rw [runUpload_error_eq mb maxPages input st hfl]
    refine ⟨rfl, ?_, rfl⟩
    simp [List.getLast?_concat]
  | ok st =>
    right
    rw [runUpload_ok_eq mb maxPages input st hfl]
    refine ⟨by rw [finalize_result]; rfl, ?_, by rw [finalize_object]; rfl⟩
    unfold finalize
    split
    · simp [lastIsFinal, List.getLast?_append]
    · simp [lastIsFinal, List.getLast?_concat]

/-! ## Counting S3 calls -/

theorem countPuts_append (a b : List S3Event) :
    countPuts (a ++ b) = countPuts a + countPuts b := by
  simp [countPuts, List.filter_append]

theorem countCompletes_append (a b : List S3Event) :
    countCompletes (a ++ b) = countCompletes a + countCompletes b := by
  simp [countCompletes, List.filter_append]

theorem countAborts_append (a b : List S3Event) :
    countAborts (a ++ b) = countAborts a + countAborts b := by
  simp [countAborts, List.filter_append]

theorem completeLists_append (a b : List S3Event) :
    completeLists (a ++ b) = completeLists a ++ completeLists b := by
  simp [completeLists, List.filterMap_append]

theorem dataOnly_counts (evs : List S3Event) (h : evs.all isDataEvent = true) :
    countPuts evs = 0 ∧ countCompletes evs = 0 ∧ countAborts evs = 0 ∧
      completeLists evs = [] := by
  induction evs with
  | nil => exact ⟨rfl, rfl, rfl, rfl⟩
  | cons e rest ih =>
    rw [List.all_cons, Bool.and_eq_true] at h
    obtain ⟨h1, h2⟩ := h
    obtain ⟨p1, p2, p3, p4⟩ := ih h2
    cases e with
    | createMultipart => exact ⟨p1, p2, p3, p4⟩
    | uploadPart n b => exact ⟨p1, p2, p3, p4⟩
    | putObject b => exact absurd h1 (by simp [isDataEvent])
    | completeMultipart ns => exact absurd h1 (by simp [isDataEvent])
    | abortMultipart => exact absurd h1 (by simp [isDataEvent])

/-! ## What finalize commits -/

theorem inv_totalBytes_split (ps : Nat) (st : RunState) (h : Inv ps st) :
    st.totalBytes = ps * st.parts.length + st.buffer.length := by
  obtain ⟨⟨h1, h2, h3, h4, h5⟩, hb⟩ := h
  rw [h4]
  simp only [contentOf, List.length_append, List.length_flatten, List.map_map]
  congr 1
  have hrep : (st.parts.map (List.length ∘ Prod.snd)) =
      List.replicate st.parts.length ps := by
    rw [List.eq_replicate_iff]
    refine ⟨List.length_map _ _, ?_⟩
    intro b hbm
    obtain ⟨p, hp, hpe⟩ := List.mem_map.mp hbm
    rw [← hpe]
    exact h3 p hp
  rw [hrep, List.sum_const_nat, Nat.mul_comm]

theorem inv_parts_sizes (ps : Nat) (st : RunState) (h : Inv ps st) :
    (st.parts.map fun p => p.2.length) = List.replicate st.parts.length ps := by
  rw [List.eq_replicate_iff]
  refine ⟨List.length_map _ _, ?_⟩
  intro b hbm
  obtain ⟨p, hp, hpe⟩ := List.mem_map.mp hbm
  rw [← hpe]
  exact h.1.2.2.1 p hp

theorem finalize_spec (ps : Nat) (st : RunState) (h : Inv ps st) :
    (finalize st).committed.map Prod.fst = List.range' 1 (finalize st).committed.length ∧
    ((finalize st).committed.dropLast.map fun p => p.2.length) =
      List.replicate (finalize st).committed.dropLast.length ps ∧
    ((finalize st).committed.map fun p => p.2.length) =
      (if st.totalBytes < ps then []
       else List.replicate (st.totalBytes / ps) ps ++
         (if st.totalBytes % ps = 0 then [] else [st.totalBytes % ps])) ∧
    countPuts (finalize st).events = (if (finalize st).committed.isEmpty then 1 else 0) ∧
    countCompletes (finalize st).events = (if (finalize st).committed.isEmpty then 0 else 1) ∧
    countAborts (finalize st).events = (if (finalize st).committed.isEmpty then 1 else 0) ∧
    completeLists (finalize st).events =
      (if (finalize st).committed.isEmpty then []
       else [(finalize st).committed.map Prod.fst]) := by
  have hsplit := inv_totalBytes_split ps st h
  have hsizes := inv_parts_sizes ps st h
  obtain ⟨⟨h1, h2, h3, h4, h5⟩, hb⟩ := h
  obtain ⟨d1, d2, d3, d4⟩ := dataOnly_counts st.events h5
  have hpos : 0 < ps := by omega
  unfold finalize
  split
  · rename_i hemp
    have hpe : st.parts = [] := List.isEmpty_iff.mp hemp
    have hbytes : st.totalBytes < ps := by
      rw [hsplit, hpe]
      simpa using hb
    refine ⟨rfl, rfl, ?_, ?_, ?_, ?_, ?_⟩
    · rw [if_pos hbytes]; rfl
    · rw [countPuts_append, d1]; rfl
    · rw [countCompletes_append, d2]; rfl
    · rw [countAborts_append, d3]; rfl
    · rw [completeLists_append, d4]; rfl
  · rename_i hemp
    have hpe : st.parts ≠ [] := fun he => hemp (by simp [he])
    have hn : 0 < st.parts.length := List.length_pos.mpr hpe
    have hbytes : ¬st.totalBytes < ps := by
      rw [hsplit]
      have : ps ≤ ps * st.parts.length := Nat.le_mul_of_pos_right ps hn
      omega
    have hdiv : st.totalBytes / ps = st.parts.length := by
      rw [hsplit, Nat.mul_add_div hpos, Nat.div_eq_of_lt hb, Nat.add_zero]
    have hmod : st.totalBytes % ps = st.buffer.length := by
      rw [hsplit, Nat.mul_add_mod, Nat.mod_eq_of_lt hb]
    by_cases hbuf : st.buffer.isEmpty = true
    · have hbe : st.buffer = [] := List.isEmpty_iff.mp hbuf
      rw [if_pos hbuf]
      have hcf : st.parts.isEmpty = false := by
        cases hpp : st.parts with
        | nil => exact absurd hpp hpe
        | cons a l => rfl
      have hmod0 : st.totalBytes % ps = 0 := by rw [hmod, hbe]; rfl
      refine ⟨by rw [h1], ?_, ?_, ?_, ?_, ?_, ?_⟩
      · rw [List.eq_replicate_iff]
        refine ⟨List.length_map _ _, ?_⟩
        intro b hbm
        obtain ⟨p, hp, hpe2⟩ := List.mem_map.mp hbm
        rw [← hpe2]
        exact h3 p (List.dropLast_subset _ hp)
      · rw [if_neg hbytes, if_pos hmod0, hdiv, List.append_nil]
        exact hsizes
      · dsimp only
        rw [countPuts_append, d1, hcf]
        rfl
      · dsimp only
        rw [countCompletes_append, d2, hcf]
        rfl
      · dsimp only
        rw [countAborts_append, d3, hcf]
        rfl
      · dsimp only
        rw [completeLists_append, d4, hcf]
        rfl
    · have hbne : st.buffer ≠ [] := fun he => hbuf (by simp [he])
      have hblen : 0 < st.buffer.length := List.length_pos.mpr hbne
      rw [if_neg hbuf]
      have hmodne : st.totalBytes % ps ≠ 0 := by rw [hmod]; omega
      have hcf2 : (st.parts ++ [(st.partNumber, st.buffer)]).isEmpty = false := by
        cases hpp : st.parts with
        | nil => rfl
        | cons a l => rfl
      refine ⟨?_, ?_, ?_, ?_, ?_, ?_, ?_⟩
      · rw [List.map_append, h1, h2]
        simp only [List.map_cons, List.map_nil, List.length_append, List.length_cons,
          List.length_nil]
        rw [List.range'_1_concat]
        simp [Nat.add_comm]
      · rw [List.dropLast_concat]
        exact hsizes
      · rw [if_neg hbytes, if_neg hmodne, hdiv, hmod, List.map_append, hsizes]
        rfl
      · dsimp only
        rw [countPuts_append, countPuts_append, d1, hcf2]
        rfl
      · dsimp only
        rw [countCompletes_append, countCompletes_append, d2, hcf2]
        rfl
      · dsimp only
        rw [countAborts_append, countAborts_append, d3, hcf2]
        rfl
      · dsimp only
        rw [completeLists_append, completeLists_append, d4, hcf2]
        rfl

/-- C5: throughout every successful run, committed part numbers are
contiguous from 1; all committed parts except possibly the last are exactly
the effective part size; the flush loop always leaves the buffer strictly
below one part size; and the effective part size respects the 5 MiB floor for
every configured `CHATLOG_PART_SIZE_MB`. -/
theorem upload_part_invariants (mb : Int) (maxPages : Nat) (input : List PageItem)
    (st0 : RunState) (h : (runUpload mb maxPages input).result.isSome = true) :
    (runUpload mb maxPages input).committed.map Prod.fst =
      List.range' 1 (runUpload mb maxPages input).committed.length ∧
    ((runUpload mb maxPages input).committed.dropLast.map fun p => p.2.length) =
      List.replicate (runUpload mb maxPages input).committed.dropLast.length
        (effectivePartSize mb) ∧
    (flushLoop (effectivePartSize mb) st0).buffer.length < effectivePartSize mb ∧
    5 * 1024 * 1024 ≤ effectivePartSize mb := by
  rw [runUpload_result_isOk] at h
  cases hfl : fetchLoop (effectivePartSize mb) maxPages input initState with
  | error st => rw [hfl] at h; exact Bool.noConfusion h
  | ok st =>
    obtain ⟨-, -, hinv⟩ := runUpload_stats_of_ok mb maxPages input st hfl
    obtain ⟨f1, f2, -, -, -, -, -⟩ := finalize_spec (effectivePartSize mb) st hinv
    rw [runUpload_ok_eq mb maxPages input st hfl]
    exact ⟨f1, f2, flushLoop_buffer_lt _ st0 (effectivePartSize_pos mb),
      effectivePartSize_ge mb⟩

/-- Witness for C5 at a concrete run. -/
theorem upload_part_invariants_witness :
    (runUpload 8 16 pagesExample).committed.map Prod.fst =
      List.range' 1 (runUpload 8 16 pagesExample).committed.length ∧
    ((runUpload 8 16 pagesExample).committed.dropLast.map fun p => p.2.length) =
      List.replicate (runUpload 8 16 pagesExample).committed.dropLast.length
        (effectivePartSize 8) ∧
    (flushLoop (effectivePartSize 8) initState).buffer.length < effectivePartSize 8 ∧
    5 * 1024 * 1024 ≤ effectivePartSize 8 :=
  upload_part_invariants 8 16 pagesExample initState (by decide)

/-- C4: on every successful run, finalize either commits nothing — one abort,
one direct put, no completion call — or issues exactly one completion call
listing every committed part number in order and no direct put; the committed
part sizes are fully determined by the byte total: `bytes / partSize` full
parts then the `bytes % partSize` remainder as an undersized final part (so
3 MiB at the 5 MiB floor direct-puts with no completion, and 12 MiB at 8 MiB
commits exactly an 8 MiB and a 4 MiB part before one completion call). -/
theorem upload_finalize_behavior (mb : Int) (maxPages : Nat) (input : List PageItem) (s : Stats)
    (h : (runUpload mb maxPages input).result = some s) :
    countPuts (runUpload mb maxPages input).events =
      (if (runUpload mb maxPages input).committed.isEmpty then 1 else 0) ∧
    countCompletes (runUpload mb maxPages input).events =
      (if (runUpload mb maxPages input).committed.isEmpty then 0 else 1) ∧
    countAborts (runUpload mb maxPages input).events =
      (if (runUpload mb maxPages input).committed.isEmpty then 1 else 0) ∧
    completeLists (runUpload mb maxPages input).events =
      (if (runUpload mb maxPages input).committed.isEmpty then []
       else [(runUpload mb maxPages input).committed.map Prod.fst]) ∧
    ((runUpload mb maxPages input).committed.map fun p => p.2.length) =
      (if s.bytes < effectivePartSize mb then []
       else List.replicate (s.bytes / effectivePartSize mb) (effectivePartSize mb) ++
         (if s.bytes % effectivePartSize mb = 0 then []
          else [s.bytes % effectivePartSize mb])) := by
  have hsome : (runUpload mb maxPages input).result.isSome = true := by rw [h]; rfl
  rw [runUpload_result_isOk] at hsome
  cases hfl : fetchLoop (effectivePartSize mb) maxPages input initState with
  | error st => rw [hfl] at hsome; exact Bool.noConfusion hsome
  | ok st =>
    obtain ⟨-, -, hinv⟩ := runUpload_stats_of_ok mb maxPages input st hfl
    obtain ⟨f1, f2, f3, f4, f5, f6, f7⟩ := finalize_spec (effectivePartSize mb) st hinv
    have hs : s = { pages := st.pages, lines := st.lines, bytes := st.totalBytes } := by
      have he := runUpload_ok_eq mb maxPages input st hfl
      rw [he, finalize_result] at h
      exact (Option.some.inj h).symm
    rw [runUpload_ok_eq mb maxPages input st hfl, hs]
    exact ⟨f4, f5, f6, f7, f3⟩

/-- Witness for C4 at a concrete run (1520 bytes, below one part size:
direct put, no completion). -/
theorem upload_finalize_behavior_witness :
    countPuts (runUpload 8 16 pagesExample).events =
      (if (runUpload 8 16 pagesExample).committed.isEmpty then 1 else 0) ∧
    countCompletes (runUpload 8 16 pagesExample).events =
      (if (runUpload 8 16 pagesExample).committed.isEmpty then 0 else 1) ∧
    countAborts (runUpload 8 16 pagesExample).events =
      (if (runUpload 8 16 pagesExample).committed.isEmpty then 1 else 0) ∧
    completeLists (runUpload 8 16 pagesExample).events =
      (if (runUpload 8 16 pagesExample).committed.isEmpty then []
       else [(runUpload 8 16 pagesExample).committed.map Prod.fst]) ∧
    ((runUpload 8 16 pagesExample).committed.map fun p => p.2.length) =
      (if (Stats.mk 1 40 1520).bytes < effectivePartSize 8 then []
       else List.replicate ((Stats.mk 1 40 1520).bytes / effectivePartSize 8)
           (effectivePartSize 8) ++
         (if (Stats.mk 1 40 1520).bytes % effectivePartSize 8 = 0 then []
          else [(Stats.mk 1 40 1520).bytes % effectivePartSize 8])) :=
  upload_finalize_behavior 8 16 pagesExample (Stats.mk 1 40 1520) (by decide)

/-- C3: when a page's next-cursor (stripped) equals the cursor that requested
it, the loop stops right after processing that page: the result is a normal
break, identical for every possible continuation of the response stream, and
exactly one further request was issued. -/
theorem fetch_stall_guard (ps maxPages : Nat) (st : RunState) (code : Int)
    (chats : List ChatItem) (raw : String) (rest rest2 : List PageItem)
    (hpage : st.pages < maxPages) (hcode : code = 200) (hchats : chats ≠ [])
    (hstall : pyStrip raw = st.cursor) :
    fetchLoop ps maxPages (PageItem.resp code chats (some raw) :: rest) st =
      fetchLoop ps maxPages (PageItem.resp code chats (some raw) :: rest2) st ∧
    isOkE (fetchLoop ps maxPages (PageItem.resp code chats (some raw) :: rest) st) = true ∧
    requestsOf (fetchLoop ps maxPages (PageItem.resp code chats (some raw) :: rest) st) =
      st.requests + 1 := by
  have hnp : ¬maxPages ≤ st.pages := by omega
  have hnc : ¬code ≠ 200 := by simp [hcode]
  have hni : ¬chats.isEmpty = true := by
    cases hch : chats with
    | nil => exact absurd hch hchats
    | cons a l => simp
  simp only [fetchLoop, if_neg hnp, if_neg hnc, if_neg hni]
  by_cases hblank : pyStrip raw = ""
  · simp only [if_pos hblank]
    refine ⟨trivial, rfl, ?_⟩
    simp [requestsOf, processChats_requests]
  · simp only [if_neg hblank, if_pos hstall]
    refine ⟨trivial, rfl, ?_⟩
    simp [requestsOf, processChats_requests]

/-- Witness for C3: the second page's cursor repeats `"0"`. -/
theorem fetch_stall_guard_witness :
    fetchLoop 5242880 5000 (PageItem.resp 200 [sampleChat] (some "0") :: [PageItem.fetchErr])
        initState =
      fetchLoop 5242880 5000 (PageItem.resp 200 [sampleChat] (some "0") :: []) initState ∧
    isOkE (fetchLoop 5242880 5000
        (PageItem.resp 200 [sampleChat] (some "0") :: [PageItem.fetchErr]) initState) = true ∧
    requestsOf (fetchLoop 5242880 5000
        (PageItem.resp 200 [sampleChat] (some "0") :: [PageItem.fetchErr]) initState) =
      initState.requests + 1 :=
  fetch_stall_guard 5242880 5000 initState 200 [sampleChat] "0" [PageItem.fetchErr] []
    (by decide) rfl (by decide) (by decide)

/-- C6 counterexample: 1700000000000 ms is 2023-11-14 22:13:20 UTC, so at the
fixed UTC+9 offset the code renders 2023-11-15 07:13:20 — the claimed output
line carries the UTC rendering and is not produced. -/
theorem normalize_example_counterexample :
    chatLine 1700000000000 (ProfileVal.strParsedDict (some "abc")) "h1" "hello\nworld" =
      "[2023-11-15 07:13:20] abc: hello world (h1)" ++ "\n" ∧
    chatLine 1700000000000 (ProfileVal.strParsedDict (some "abc")) "h1" "hello\nworld" ≠
      "[2023-11-14 22:13:20] abc: hello world (h1)" ++ "\n" :=
  ⟨by decide, by decide⟩

/-- C6 (amended): normalizing the spec's example record — millisecond epoch
timestamp converted to the fixed UTC+9 offset, embedded newline collapsed to
one space — produces exactly `[2023-11-15 07:13:20] abc: hello world (h1)`
followed by a newline. -/
theorem normalize_example :
    normalizeItem? (ChatItem.chat (Chat.mk (some 1700000000000)
        (ProfileVal.strParsedDict (some "abc")) "h1" "hello\nworld")) =
      some (utf8Bytes ("[2023-11-15 07:13:20] abc: hello world (h1)" ++ "\n")) := by
  decide

/-- C7 counterexample: with 40 records on page 1 and 0 records on page 2 the
run returns pages = 1, not the claimed 2 — the final empty page is fetched
but never counted (`pages += 1` runs only after a non-empty record loop). -/
theorem page_count_counterexample :
    (runUpload 8 5000 pagesExample).result.map Stats.pages = some 1 ∧
    (runUpload 8 5000 pagesExample).result.map Stats.pages ≠ some 2 :=
  ⟨by decide, by decide⟩

/-- C7 (amended): page 1 returning 40 records and page 2 returning 0 stops
the run after the second request with lines = 40 and pages = 1. -/
theorem page_count_example :
    (runUpload 8 5000 pagesExample).result.map Stats.pages = some 1 ∧
    (runUpload 8 5000 pagesExample).result.map Stats.lines = some 40 ∧
    (runUpload 8 5000 pagesExample).requests = 2 :=
  ⟨by decide, by decide, by decide⟩

/-! ## The retry wrapper -/

theorem requestAux_spec (base : ℚ) (net : Nat → AttemptResp) :
    ∀ k remaining attempt,
      (∀ i, i < k → (net (attempt + i)).status ∈ transientStatuses) →
      (net (attempt + k)).status ∉ transientStatuses →
      400 ≤ (net (attempt + k)).status → (net (attempt + k)).status < 600 →
      requestAux base net remaining attempt =
        (if k < remaining then
          (((List.range k).map fun i =>
              [ReqEvent.getCall, ReqEvent.sleepEv (base * 2 ^ (attempt + i))]).flatten
            ++ [ReqEvent.getCall],
           Except.error (ReqError.httpError (net (attempt + k)).status))
        else
          (((List.range remaining).map fun i =>
              [ReqEvent.getCall, ReqEvent.sleepEv (base * 2 ^ (attempt + i))]).flatten,
           Except.error ReqError.exhausted)) := by
  intro k
  induction k with
  | zero =>
    intro remaining attempt htrans hnt h4 h6
    rw [Nat.add_zero] at hnt h4 h6
    cases remaining with
    | zero => simp [requestAux]
    | succ m =>
      have hne : ¬(net attempt).status = 200 := by omega
      have hrange : 400 ≤ (net attempt).status ∧ (net attempt).status < 600 := ⟨h4, h6⟩
      simp only [requestAux]
      rw [if_neg hne, if_neg hnt, if_pos hrange, if_pos (Nat.succ_pos m)]
      simp
  | succ k2 ih =>
    intro remaining attempt htrans hnt h4 h6
    cases remaining with
    | zero =>
      rw [if_neg (by omega)]
      simp [requestAux]
    | succ m =>
      have htr0 : (net attempt).status ∈ transientStatuses := by
        have h0 := htrans 0 (Nat.succ_pos k2)
        rwa [Nat.add_zero] at h0
      have hne : ¬(net attempt).status = 200 := by
        simp only [transientStatuses, List.mem_cons, List.not_mem_nil, or_false] at htr0
        rcases htr0 with h | h | h | h <;> omega
      have hidx : attempt + 1 + k2 = attempt + (k2 + 1) := by omega
      have ihh := ih m (attempt + 1)
        (fun i hi => by
          have hh := htrans (i + 1) (by omega)
          rwa [show attempt + (i + 1) = attempt + 1 + i from by omega] at hh)
        (by rwa [hidx]) (by rwa [hidx]) (by rwa [hidx])
      simp only [requestAux]
      rw [if_neg hne, if_pos htr0, ihh]
      by_cases hkm : k2 < m
      · rw [if_pos hkm, if_pos (show k2 + 1 < m + 1 by omega)]
        dsimp only
        rw [Prod.mk.injEq]
        refine ⟨?_, by rw [hidx]⟩
        rw [List.range_succ_eq_map]
        simp [List.map_map, Function.comp, Nat.add_assoc, Nat.add_comm, Nat.add_left_comm]
        rfl
      · rw [if_neg hkm, if_neg (show ¬k2 + 1 < m + 1 by omega)]
        dsimp only
        rw [Prod.mk.injEq]
        refine ⟨?_, rfl⟩
        rw [List.range_succ_eq_map]
        simp [List.map_map, Function.comp, Nat.add_assoc, Nat.add_comm, Nat.add_left_comm]
        rfl

/-- C8 counterexample: 504 Gateway Timeout is a server-side 5xx status, yet
the wrapper does not retry it — the very first attempt raises the HTTP error
fatally (the designated retry set is only 429, 500, 502, 503). -/
theorem request_504_counterexample :
    request 1 3 (fun _ => AttemptResp.mk 504 200 "c") =
      ([ReqEvent.getCall], Except.error (ReqError.httpError 504)) ∧
    500 ≤ 504 ∧ 504 < 600 ∧ (504 : Nat) ∉ transientStatuses :=
  ⟨rfl, by decide, by decide, by decide⟩

/-- C8 (amended): `_request` retries — sleeping `base × 2^attempt` before
each retry — exactly while the status is in the designated transient set
{429, 500, 502, 503}; the first status in the HTTP error range 400-599
outside that set is fatal immediately without retry, and the error carries
that status; exhausting the bounded attempts while statuses stay transient is
fatal as well. -/
theorem request_retry_policy (base : ℚ) (net : Nat → AttemptResp) (m k : Nat)
    (htrans : ∀ i, i < k → (net i).status ∈ transientStatuses)
    (hnt : (net k).status ∉ transientStatuses)
    (h4 : 400 ≤ (net k).status) (h6 : (net k).status < 600) :
    request base m net =
      (if k < m then
        (((List.range k).map fun i =>
            [ReqEvent.getCall, ReqEvent.sleepEv (base * 2 ^ i)]).flatten
          ++ [ReqEvent.getCall],
         Except.error (ReqError.httpError (net k).status))
      else
        (((List.range m).map fun i =>
            [ReqEvent.getCall, ReqEvent.sleepEv (base * 2 ^ i)]).flatten,
         Except.error ReqError.exhausted)) := by
  have h := requestAux_spec base net k m 0
    (fun i hi => by simpa using htrans i hi)
    (by simpa using hnt) (by simpa using h4) (by simpa using h6)
  simpa [request] using h

/-- Witness for C8: a 429 retried with one backoff sleep, then a fatal 404. -/
theorem request_retry_policy_witness :
    request 1 3 c8Net =
      (if 1 < 3 then
        (((List.range 1).map fun i =>
            [ReqEvent.getCall, ReqEvent.sleepEv ((1 : ℚ) * 2 ^ i)]).flatten
          ++ [ReqEvent.getCall],
         Except.error (ReqError.httpError (c8Net 1).status))
      else
        (((List.range 3).map fun i =>
            [ReqEvent.getCall, ReqEvent.sleepEv ((1 : ℚ) * 2 ^ i)]).flatten,
         Except.error ReqError.exhausted)) :=
  request_retry_policy 1 c8Net 3 1 (by decide) (by decide) (by decide) (by decide)

/-- C9: re-running `fetch_and_save_chat_data` against a destination file that
already exists with non-empty content issues zero network requests and leaves
the file byte-identical; the skip is a plain return (the function has no
failure channel), not an error. -/
theorem resume_skip (c : List String) (net : List BotItem) (h : c ≠ []) :
    fetchAndSaveChat (some c) net = { file := some c, requests := 0 } := by
  have hd : destNonEmpty (some c) = true := by
    cases hc : c with
    | nil => exact absurd hc h
    | cons a l => rfl
  unfold fetchAndSaveChat
  rw [if_pos hd]

/-- Witness for C9: one existing line, a network that would fail if touched. -/
theorem resume_skip_witness :
    fetchAndSaveChat (some ["line"]) [BotItem.fetchErr] =
      { file := some ["line"], requests := 0 } :=
  resume_skip ["line"] [BotItem.fetchErr] (by decide)

end Chzzk
